import Mathlib

/-!
Verification of the C runtime shims in `src/zephyr-sys/src/` (Stubs.c, Time.c).

The three shims are embedded shallowly:

* `posix_memalign` (Stubs.c) forwards an allocation request to the
  platform-provided `aligned_alloc`.  The platform primitive is modelled as an
  injected capability `aligned_alloc : Nat → Nat → Nat` mapping
  (alignment, size) to a pointer value, with `0` playing the role of `NULL`
  (matching the C test `if (p)`).  The caller's `*memptr` slot is modelled as a
  `Nat` holding its current contents; the shim returns the status code and the
  slot's contents after the call.  `errno` at the time of the call is an input,
  since the shim only reads it.

* `getentropy` (Stubs.c) validates its arguments and fills the buffer with
  `rand() % 256` bytes.  Byte-addressed memory is a function `Nat → Nat`; the
  buffer pointer is a `Nat` with `0` as `NULL` (matching `if (!buffer)`).
  The platform PRNG `rand` is modelled as its output stream
  `randSeq : Nat → Nat` together with a cursor `randIdx` in the state: the
  k-th call to `rand()` since the start of the program returns `randSeq k`.
  The C state touched by the call (memory, errno, the PRNG cursor) is
  threaded explicitly through `EntropyState`.

* `msleep` (Time.c) forwards its argument to the kernel primitive `k_msleep`,
  modelled as an injected capability `Int → Int`.
-/

/-- The POSIX/Zephyr `EINVAL` error code, as set by `errno = EINVAL` in
`getentropy` (Stubs.c). -/
def EINVAL : Int := 22

/-- The C state read or written by the `getentropy` shim: byte-addressed
memory, the `errno` cell, and the position of the platform PRNG in its output
stream. -/
structure EntropyState where
  mem : Nat → Nat
  errno : Int
  randIdx : Nat

/-- The loop `for (size_t i = 0; i < length; i++) buf[i] = rand() % 256;` of
`getentropy` (Stubs.c:104-108).  `i` is the loop counter and `n` the number of
iterations still to run (`n = length - i`), so that the recursion is
structural; each iteration stores `rand() % 256` at address `buf + i` and
advances the PRNG cursor by one. -/
def fill (randSeq : Nat → Nat) (buf : Nat) : Nat → Nat → EntropyState → EntropyState
  | _, 0, s => s
  | i, n + 1, s =>
    fill randSeq buf (i + 1) n
      { mem := fun a => if a = buf + i then randSeq s.randIdx % 256 else s.mem a,
        errno := s.errno,
        randIdx := s.randIdx + 1 }

/-- `getentropy` (Stubs.c:92-111): if the buffer is `NULL` or the length
exceeds 256, set `errno = EINVAL` and return `-1`; otherwise fill the buffer
with `rand() % 256` bytes and return `0`.  The result pairs the return value
with the state after the call. -/
def getentropy (randSeq : Nat → Nat) (buffer length : Nat) (s : EntropyState) :
    Int × EntropyState :=
  if buffer = 0 ∨ length > 256 then
    (-1, { s with errno := EINVAL })
  else
    (0, fill randSeq buffer 0 length s)

/-- `posix_memalign` (Stubs.c:61-75): call `aligned_alloc(alignment, size)`;
on a non-`NULL` result write it to `*memptr` and return `0`, otherwise return
the current `errno` and leave `*memptr` alone.  The result pairs the return
value with the contents of the `*memptr` slot after the call (`slot` holds its
contents before the call). -/
def posix_memalign (aligned_alloc : Nat → Nat → Nat) (alignment size : Nat)
    (slot : Nat) (errno : Int) : Int × Nat :=
  let p := aligned_alloc alignment size
  if p ≠ 0 then (0, p) else (errno, slot)

/-- `msleep` (Time.c:13): `int32_t msleep(int32_t ms) { return k_msleep(ms); }`,
with the kernel primitive `k_msleep` as an injected capability. -/
def msleep (k_msleep : Int → Int) (ms : Int) : Int := k_msleep ms

/-- A concrete initial state used by the witnesses: zeroed memory, `errno = 0`,
PRNG at the start of its stream. -/
def s0 : EntropyState := { mem := fun _ => 0, errno := 0, randIdx := 0 }

/-! ### Lemmas about the fill loop -/

theorem fill_errno (randSeq : Nat → Nat) (buf : Nat) :
    ∀ (n i : Nat) (s : EntropyState), (fill randSeq buf i n s).errno = s.errno := by
  intro n
  induction n with
  | zero => intro i s; rfl
  | succ n ih => intro i s; simpa [fill] using ih (i + 1) _

theorem fill_randIdx (randSeq : Nat → Nat) (buf : Nat) :
    ∀ (n i : Nat) (s : EntropyState),
      (fill randSeq buf i n s).randIdx = s.randIdx + n := by
  intro n
  induction n with
  | zero => intro i s; rfl
  | succ n ih =>
    intro i s
    simp only [fill]
    rw [ih]
    show s.randIdx + 1 + n = s.randIdx + (n + 1)
    omega

theorem fill_mem_outside (randSeq : Nat → Nat) (buf : Nat) :
    ∀ (n i : Nat) (s : EntropyState) (a : Nat),
      a < buf + i ∨ buf + i + n ≤ a →
      (fill randSeq buf i n s).mem a = s.mem a := by
  intro n
  induction n with
  | zero => intro i s a _; rfl
  | succ n ih =>
    intro i s a ha
    simp only [fill]
    rw [ih (i + 1) _ a (by omega)]
    have hne : a ≠ buf + i := by omega
    simp [hne]

theorem fill_mem_at (randSeq : Nat → Nat) (buf : Nat) :
    ∀ (n j i : Nat) (s : EntropyState), j < n →
      (fill randSeq buf i n s).mem (buf + i + j) = randSeq (s.randIdx + j) % 256 := by
  intro n
  induction n with
  | zero => intro j i s hj; exact absurd hj (Nat.not_lt_zero j)
  | succ n ih =>
    intro j i s hj
    simp only [fill]
    cases j with
    | zero =>
      rw [fill_mem_outside randSeq buf n (i + 1) _ (buf + i + 0) (by omega)]
      simp
    | succ j =>
      have h1 : buf + i + (j + 1) = buf + (i + 1) + j := by omega
      rw [h1, ih j (i + 1) _ (by omega)]
      have h2 : s.randIdx + 1 + j = s.randIdx + (j + 1) := by omega
      simp [h2]

/-- On valid arguments `getentropy` takes the success branch. -/
theorem getentropy_valid_eq (randSeq : Nat → Nat) (buffer length : Nat)
    (s : EntropyState) (hb : buffer ≠ 0) (hl : length ≤ 256) :
    getentropy randSeq buffer length s = (0, fill randSeq buffer 0 length s) := by
  unfold getentropy
  rw [if_neg]
  push_neg
  exact ⟨hb, by omega⟩

/-! ### Claim theorems -/

/-- C1: for every non-null buffer and every length in [0, 256], `getentropy`
returns 0, writes a byte at each of the indices 0..length-1 (the byte at index
i is the PRNG draw `randSeq (s.randIdx + i) % 256`), and writes nothing
outside the buffer range. -/
theorem getentropy_valid_writes_exactly_length
    (randSeq : Nat → Nat) (buffer length : Nat) (s : EntropyState)
    (hb : buffer ≠ 0) (hl : length ≤ 256) :
    (getentropy randSeq buffer length s).1 = 0 ∧
    (∀ i, i < length →
      (getentropy randSeq buffer length s).2.mem (buffer + i)
        = randSeq (s.randIdx + i) % 256) ∧
    (∀ a, a < buffer ∨ buffer + length ≤ a →
      (getentropy randSeq buffer length s).2.mem a = s.mem a) := by
  rw [getentropy_valid_eq randSeq buffer length s hb hl]
  refine ⟨rfl, ?_, ?_⟩
  · intro i hi
    simpa using fill_mem_at randSeq buffer length i 0 s hi
  · intro a ha
    exact fill_mem_outside randSeq buffer length 0 s a (by omega)

theorem getentropy_valid_writes_exactly_length_witness :
    (1 : Nat) ≠ 0 ∧ (2 : Nat) ≤ 256 ∧
    (getentropy (fun n => n) 1 2 s0).1 = 0 ∧
    (getentropy (fun n => n) 1 2 s0).2.mem 1 = 0 ∧
    (getentropy (fun n => n) 1 2 s0).2.mem 2 = 1 ∧
    (getentropy (fun n => n) 1 2 s0).2.mem 9 = s0.mem 9 := by
  have h := getentropy_valid_writes_exactly_length (fun n => n) 1 2 s0
    (by decide) (by decide)
  refine ⟨by decide, by decide, h.1, ?_, ?_, h.2.2 9 (by omega)⟩
  · simpa [s0] using h.2.1 0 (by omega)
  · simpa [s0] using h.2.1 1 (by omega)

/-- C2: for a null buffer (any length) or a length above 256, `getentropy`
returns -1, sets `errno` to `EINVAL`, and changes neither the memory nor the
PRNG position. -/
theorem getentropy_invalid_rejects
    (randSeq : Nat → Nat) (buffer length : Nat) (s : EntropyState)
    (h : buffer = 0 ∨ length > 256) :
    (getentropy randSeq buffer length s).1 = -1 ∧
    (getentropy randSeq buffer length s).2.errno = EINVAL ∧
    (getentropy randSeq buffer length s).2.mem = s.mem ∧
    (getentropy randSeq buffer length s).2.randIdx = s.randIdx := by
  unfold getentropy
  rw [if_pos h]
  exact ⟨rfl, rfl, rfl, rfl⟩

theorem getentropy_invalid_rejects_witness :
    ((1 : Nat) = 0 ∨ (257 : Nat) > 256) ∧
    (getentropy (fun n => n) 1 257 s0).1 = -1 ∧
    (getentropy (fun n => n) 1 257 s0).2.errno = EINVAL ∧
    (getentropy (fun n => n) 1 257 s0).2.mem = s0.mem ∧
    (getentropy (fun n => n) 1 257 s0).2.randIdx = s0.randIdx := by
  have h := getentropy_invalid_rejects (fun n => n) 1 257 s0 (by decide)
  exact ⟨by decide, h.1, h.2.1, h.2.2.1, h.2.2.2⟩

/-- C9: `getentropy` with a non-null buffer and length 0 returns 0 and leaves
the entire state (memory, errno, PRNG position) exactly as it was. -/
theorem getentropy_length_zero_noop (randSeq : Nat → Nat) (buffer : Nat)
    (s : EntropyState) (hb : buffer ≠ 0) :
    getentropy randSeq buffer 0 s = (0, s) := by
  rw [getentropy_valid_eq randSeq buffer 0 s hb (by omega), fill]

theorem getentropy_length_zero_noop_witness :
    (1 : Nat) ≠ 0 ∧ getentropy (fun n => n) 1 0 s0 = (0, s0) :=
  ⟨by decide, getentropy_length_zero_noop (fun n => n) 1 s0 (by decide)⟩

/-- C10: on the success path (non-null buffer, length ≤ 256) `getentropy`
leaves `errno` unchanged. -/
theorem getentropy_success_preserves_errno (randSeq : Nat → Nat)
    (buffer length : Nat) (s : EntropyState)
    (hb : buffer ≠ 0) (hl : length ≤ 256) :
    (getentropy randSeq buffer length s).2.errno = s.errno := by
  rw [getentropy_valid_eq randSeq buffer length s hb hl]
  exact fill_errno randSeq buffer length 0 s

theorem getentropy_success_preserves_errno_witness :
    (1 : Nat) ≠ 0 ∧ (3 : Nat) ≤ 256 ∧
    (getentropy (fun n => n) 1 3 s0).2.errno = s0.errno :=
  ⟨by decide, by decide,
    getentropy_success_preserves_errno (fun n => n) 1 3 s0 (by decide) (by decide)⟩

/-- C7: on a successful call the byte at index i is the i-th successive output
of `rand()` reduced modulo 256 (draw number `s.randIdx + i` of the stream),
and exactly `length` draws are consumed. -/
theorem getentropy_bytes_are_successive_rand_draws (randSeq : Nat → Nat)
    (buffer length : Nat) (s : EntropyState)
    (hb : buffer ≠ 0) (hl : length ≤ 256) :
    (∀ i, i < length →
      (getentropy randSeq buffer length s).2.mem (buffer + i)
        = randSeq (s.randIdx + i) % 256) ∧
    (getentropy randSeq buffer length s).2.randIdx = s.randIdx + length := by
  rw [getentropy_valid_eq randSeq buffer length s hb hl]
  refine ⟨?_, fill_randIdx randSeq buffer length 0 s⟩
  intro i hi
  simpa using fill_mem_at randSeq buffer length i 0 s hi

theorem getentropy_bytes_are_successive_rand_draws_witness :
    (2 : Nat) ≠ 0 ∧ (3 : Nat) ≤ 256 ∧
    (getentropy (fun n => 7 * n) 2 3 s0).2.mem 4 = 14 ∧
    (getentropy (fun n => 7 * n) 2 3 s0).2.randIdx = 3 := by
  have h := getentropy_bytes_are_successive_rand_draws (fun n => 7 * n) 2 3 s0
    (by decide) (by decide)
  refine ⟨by decide, by decide, ?_, by simpa [s0] using h.2⟩
  simpa [s0] using h.1 2 (by omega)

/-- C3 (counterexample to the claim as stated): `posix_memalign` returns the
current `errno` verbatim when `aligned_alloc` fails, so if the platform left
`errno = 0` at the moment of failure the shim returns 0 — not a nonzero error
code — while still leaving the slot unwritten. -/
theorem posix_memalign_failed_alloc_zero_errno_returns_zero :
    ((fun _ _ => 0 : Nat → Nat → Nat) 16 64 = 0) ∧
    (posix_memalign (fun _ _ => 0) 16 64 7 0).1 = 0 ∧
    (posix_memalign (fun _ _ => 0) 16 64 7 0).2 = 7 :=
  ⟨rfl, rfl, rfl⟩

/-- C3 (amended): when `aligned_alloc` fails, `posix_memalign` returns the
platform's current `errno` (nonzero exactly when `errno` was nonzero at that
moment) and leaves the `*memptr` slot unwritten. -/
theorem posix_memalign_failure_returns_errno_slot_unwritten
    (aa : Nat → Nat → Nat) (alignment size slot : Nat) (errno : Int)
    (hfail : aa alignment size = 0) :
    posix_memalign aa alignment size slot errno = (errno, slot) ∧
    (errno ≠ 0 → (posix_memalign aa alignment size slot errno).1 ≠ 0) := by
  have hp : posix_memalign aa alignment size slot errno = (errno, slot) := by
    unfold posix_memalign
    simp [hfail]
  refine ⟨hp, ?_⟩
  intro h0
  rw [hp]
  exact h0

theorem posix_memalign_failure_returns_errno_slot_unwritten_witness :
    ((fun _ _ => 0 : Nat → Nat → Nat) 16 64 = 0) ∧
    posix_memalign (fun _ _ => 0) 16 64 7 12 = (12, 7) ∧
    (posix_memalign (fun _ _ => 0) 16 64 7 12).1 ≠ 0 := by
  have h := posix_memalign_failure_returns_errno_slot_unwritten
    (fun _ _ => 0) 16 64 7 12 rfl
  exact ⟨rfl, h.1, h.2 (by decide)⟩

/-- C4: when `aligned_alloc` returns a non-null pointer p, `posix_memalign`
writes p into the `*memptr` slot and returns 0. -/
theorem posix_memalign_success_writes_slot
    (aa : Nat → Nat → Nat) (alignment size slot : Nat) (errno : Int)
    (hsucc : aa alignment size ≠ 0) :
    posix_memalign aa alignment size slot errno = (0, aa alignment size) := by
  unfold posix_memalign
  simp [hsucc]

theorem posix_memalign_success_writes_slot_witness :
    ((fun _ _ => 32 : Nat → Nat → Nat) 16 64 ≠ 0) ∧
    posix_memalign (fun _ _ => 32) 16 64 7 0 = (0, 32) :=
  ⟨by decide, posix_memalign_success_writes_slot (fun _ _ => 32) 16 64 7 0 (by decide)⟩

/-- C5 (counterexample to the claim as stated): two back-to-back `getentropy`
calls with identical arguments do NOT produce identical buffer contents in
general, because the first call advances the platform PRNG: with the stream
`randSeq = id`, buffer 1, length 1, the first call stores byte 0 and the
second stores byte 1. -/
theorem getentropy_repeat_call_differs :
    (getentropy (fun n => n) 1 1 s0).2.mem 1 ≠
    (getentropy (fun n => n) 1 1 (getentropy (fun n => n) 1 1 s0).2).2.mem 1 := by
  decide

/-- C5 (amended): the shim itself keeps no state — the call's entire effect is
a function of its arguments and the incoming state — but calls are not
independent of history: each successful call advances the shared PRNG cursor
by `length` draws (leaving `errno` alone), so a second identical invocation
fills the buffer from the next `length` outputs of the generator stream,
not the same ones. -/
theorem getentropy_prng_advances_across_calls (randSeq : Nat → Nat)
    (buffer length : Nat) (s : EntropyState)
    (hb : buffer ≠ 0) (hl : length ≤ 256) :
    (getentropy randSeq buffer length s).2.randIdx = s.randIdx + length ∧
    (getentropy randSeq buffer length s).2.errno = s.errno ∧
    (∀ i, i < length →
      (getentropy randSeq buffer length
          (getentropy randSeq buffer length s).2).2.mem (buffer + i)
        = randSeq (s.randIdx + length + i) % 256) := by
  have hs1 : (getentropy randSeq buffer length s).2
      = fill randSeq buffer 0 length s := by
    rw [getentropy_valid_eq randSeq buffer length s hb hl]
  refine ⟨?_, ?_, ?_⟩
  · rw [hs1]; exact fill_randIdx randSeq buffer length 0 s
  · rw [hs1]; exact fill_errno randSeq buffer length 0 s
  · intro i hi
    rw [hs1, getentropy_valid_eq randSeq buffer length _ hb hl]
    have h := fill_mem_at randSeq buffer length i 0
      (fill randSeq buffer 0 length s) hi
    rw [fill_randIdx randSeq buffer length 0 s] at h
    simpa using h

theorem getentropy_prng_advances_across_calls_witness :
    (1 : Nat) ≠ 0 ∧ (1 : Nat) ≤ 256 ∧
    (getentropy (fun n => n) 1 1 s0).2.randIdx = 1 ∧
    (getentropy (fun n => n) 1 1 (getentropy (fun n => n) 1 1 s0).2).2.mem 1 = 1 := by
  have h := getentropy_prng_advances_across_calls (fun n => n) 1 1 s0
    (by decide) (by decide)
  refine ⟨by decide, by decide, by simpa [s0] using h.1, ?_⟩
  simpa [s0] using h.2.2 0 (by omega)

/-- C6: `msleep` forwards its argument to `k_msleep` and returns that call's
result unchanged, for every argument and every behaviour of the kernel
primitive. -/
theorem msleep_forwards_k_msleep (k_msleep : Int → Int) (ms : Int) :
    msleep k_msleep ms = k_msleep ms := rfl

/-- C8: `posix_memalign` validates nothing itself: for every alignment and
size (including a non-power-of-two alignment or a zero size) its behaviour
depends only on the value `aligned_alloc` returns for that exact pair, and a
nonzero status can only arise from `aligned_alloc` returning null. -/
theorem posix_memalign_no_validation
    (aa : Nat → Nat → Nat) (alignment size slot : Nat) (errno : Int) :
    (∀ g : Nat → Nat → Nat, g alignment size = aa alignment size →
      posix_memalign g alignment size slot errno
        = posix_memalign aa alignment size slot errno) ∧
    ((posix_memalign aa alignment size slot errno).1 ≠ 0 →
      aa alignment size = 0) := by
  constructor
  · intro g hg
    unfold posix_memalign
    rw [hg]
  · intro h
    by_contra hne
    unfold posix_memalign at h
    simp [hne] at h

theorem posix_memalign_no_validation_witness :
    posix_memalign (fun a b => a + b) 3 0 7 5 = posix_memalign (fun _ _ => 3) 3 0 7 5 ∧
    (fun _ _ => 0 : Nat → Nat → Nat) 3 0 = 0 := by
  refine ⟨(posix_memalign_no_validation (fun _ _ => 3) 3 0 7 5).1
    (fun a b => a + b) (by decide), ?_⟩
  exact (posix_memalign_no_validation (fun _ _ => 0) 3 0 7 5).2 (by decide)
